import Mathlib

/-!
# Verification of the udp-tcp-lite packet codec and connection state machine

Shallow embedding of `src/tcp_like_client.py` and `src/tcp_like_server.py`.
Bytes are modelled as natural numbers below 256, byte strings as `List Nat`,
Python's unbounded integers as `Nat` (all values in the programs are
non-negative).  `struct.pack`/`struct.unpack` range errors are modelled by
`Option` results, and the one place where `struct.unpack` can raise inside
`unpack_packet` is modelled by an explicit `crash` constructor.
-/

namespace UdpTcpLite

/-- Flag bit SYN = 0x01 (both source files). -/
def FLAG_SYN : Nat := 0x01

/-- Flag bit ACK = 0x02. -/
def FLAG_ACK : Nat := 0x02

/-- Flag bit FIN = 0x04. -/
def FLAG_FIN : Nat := 0x04

/-- Flag bit PSH = 0x08. -/
def FLAG_PSH : Nat := 0x08

/-- `HDR_SIZE = struct.calcsize("!I I B H H") = 13`. -/
def HDR_SIZE : Nat := 13

/-- `MAX_RETRIES = 5` in `tcp_like_client.py`. -/
def MAX_RETRIES : Nat := 5

/-- One iteration of the checksum loop after adding a 16-bit word:
`s = (s & 0xffff) + (s >> 16)` (line 25 of the client, line 26 of the
server; on `Nat`, `& 0xffff` is `% 65536` and `>> 16` is `/ 65536`). -/
def foldStep (s : Nat) : Nat := s % 65536 + s / 65536

/-- The loop of `checksum`: the data is consumed two bytes at a time,
Python's slice `data[i:i+2]` yielding a single trailing byte which is
padded with `\x00`; each word is added into the accumulator and the
carry folded once. -/
def checksumAux : List Nat → Nat → Nat
  | [], s => s
  | [b0], s => foldStep (s + (b0 * 256 + 0))
  | b0 :: b1 :: rest, s => checksumAux rest (foldStep (s + (b0 * 256 + b1)))

/-- Python's `(~s) & 0xffff`: on unbounded integers `~s = -s - 1` and
masking with `0xffff` is reduction modulo `2^16` (Euclidean remainder). -/
def pyNot16 (s : Nat) : Nat := ((-(s : Int) - 1) % 65536).toNat

/-- `checksum(data)` (identical in both source files): 16-bit big-endian
words summed with per-word carry folding, then complemented into 16 bits. -/
def checksum (data : List Nat) : Nat := pyNot16 (checksumAux data 0)

/-- Big-endian 4-byte encoding of an in-range `u32`, as `struct.pack "!I"`
produces it. -/
def bytes32 (n : Nat) : List Nat :=
  [n / 16777216 % 256, n / 65536 % 256, n / 256 % 256, n % 256]

/-- Big-endian 2-byte encoding of an in-range `u16`, as `struct.pack "!H"`
produces it. -/
def bytes16 (n : Nat) : List Nat := [n / 256 % 256, n % 256]

/-- `pack_packet(seq, ack, flags, wnd, payload)`: header
`struct.pack("!I I B H H", ...)` followed by the payload and the trailing
big-endian checksum.  `struct.pack` raises `struct.error` when a field is
out of range; that failure is the `none` result. -/
def pack_packet (seq ack flags wnd : Nat) (payload : List Nat) :
    Option (List Nat) :=
  if seq ≤ 0xffffffff ∧ ack ≤ 0xffffffff ∧ flags ≤ 0xff ∧ wnd ≤ 0xffff ∧
      payload.length ≤ 0xffff then
    let hdr := bytes32 seq ++ bytes32 ack ++ [flags] ++ bytes16 wnd ++
      bytes16 payload.length
    let body := hdr ++ payload
    some (body ++ bytes16 (checksum body))
  else none

/-- A decoded packet, the dictionary returned by `unpack_packet`. -/
structure Packet where
  seq : Nat
  ack : Nat
  flags : Nat
  wnd : Nat
  payload : List Nat
deriving DecidableEq

/-- Result of `unpack_packet`: `invalid` is Python's `None`, `crash` is an
uncaught `struct.error` raised by `struct.unpack("!H", ...)` on a buffer
that does not hold exactly two bytes. -/
inductive UnpackResult where
  | crash : UnpackResult
  | invalid : UnpackResult
  | ok : Packet → UnpackResult
deriving DecidableEq

/-- Python's clamping slice `raw[a:b]` for `0 ≤ a ≤ b`. -/
def pySlice (raw : List Nat) (a b : Nat) : List Nat := (raw.take b).drop a

/-- The `payload_len` header field as `unpack_packet` reads it: the
big-endian `u16` at offset 11. -/
def payloadLenOf (raw : List Nat) : Nat := raw.getD 11 0 * 256 + raw.getD 12 0

/-- `unpack_packet(raw)` (identical in both source files).  Returns
`invalid` (`None`) on a short datagram or a checksum mismatch; the
checksum bytes are read at offset `HDR_SIZE + payload_len`, and when the
slice `raw[HDR_SIZE+payload_len : HDR_SIZE+payload_len+2]` holds fewer
than two bytes `struct.unpack("!H", ...)` raises (`crash`). -/
def unpack_packet (raw : List Nat) : UnpackResult :=
  if raw.length < HDR_SIZE + 2 then .invalid
  else
    let seq := raw.getD 0 0 * 16777216 + raw.getD 1 0 * 65536 +
      raw.getD 2 0 * 256 + raw.getD 3 0
    let ack := raw.getD 4 0 * 16777216 + raw.getD 5 0 * 65536 +
      raw.getD 6 0 * 256 + raw.getD 7 0
    let flags := raw.getD 8 0
    let wnd := raw.getD 9 0 * 256 + raw.getD 10 0
    let payload_len := payloadLenOf raw
    let payload := pySlice raw HDR_SIZE (HDR_SIZE + payload_len)
    let cksBytes := pySlice raw (HDR_SIZE + payload_len)
      (HDR_SIZE + payload_len + 2)
    if cksBytes.length ≠ 2 then .crash
    else
      let cks_recv := cksBytes.getD 0 0 * 256 + cksBytes.getD 1 0
      let calcCks := checksum (raw.take (HDR_SIZE + payload_len))
      if calcCks ≠ cks_recv then .invalid
      else .ok ⟨seq, ack, flags, wnd, payload⟩

/-! ## Reference ones-complement checksum (from the specification text) -/

/-- Modelled from the spec: the data split into 16-bit big-endian words,
a trailing odd byte padded with a zero byte. -/
def toWords : List Nat → List Nat
  | [] => []
  | [b0] => [b0 * 256 + 0]
  | b0 :: b1 :: rest => (b0 * 256 + b1) :: toWords rest

/-- Modelled from the spec: the carry bits repeatedly folded back into the
low 16 bits until the sum fits in 16 bits. -/
def foldCarry (s : Nat) : Nat :=
  if s < 65536 then s else foldCarry (s % 65536 + s / 65536)
termination_by s
decreasing_by omega

/-- Modelled from the spec: the reference 16-bit ones-complement checksum —
sum the 16-bit big-endian words, repeatedly fold the carries back into the
low 16 bits, then bitwise-complement the 16-bit result. -/
def refChecksum (data : List Nat) : Nat :=
  65535 - foldCarry (toWords data).sum

/-! ## Retry/wait primitive (`send_and_wait`, client lines 47-68)

The environment is modelled as a stream of receive outcomes, one per loop
iteration: `none` is a `socket.timeout`, `some raw` a received datagram. -/

/-- Result of `send_and_wait`: `got` is a returned packet, `exhausted` is
the final `return None`, and `crash` is an uncaught `struct.error`
propagating out of `unpack_packet` (only `socket.timeout` is caught). -/
inductive SWResult where
  | crash : SWResult
  | got : Packet → SWResult
  | exhausted : SWResult
deriving DecidableEq

/-- The test `if expected_flags and not (r["flags"] & expected_flags)`
(client line 58): Python truthiness means `None` and `0` both skip the
check. -/
def flagReject (fl : Option Nat) (p : Packet) : Bool :=
  match fl with
  | none => false
  | some n => n != 0 && p.flags &&& n == 0

/-- The test `if expected_ack is not None and r["ack"] != expected_ack`
(client line 61). -/
def ackReject (ac : Option Nat) (p : Packet) : Bool :=
  match ac with
  | none => false
  | some a => p.ack != a

/-- The retry loop of `send_and_wait`, counting down the remaining
attempts (`MAX_RETRIES - attempts`); `i` indexes the environment stream.
Each iteration re-sends the same original packet (the sent datagram never
changes), so only the receive side is made explicit. -/
def swGo (env : Nat → Option (List Nat)) (fl ac : Option Nat) :
    Nat → Nat → SWResult
  | _, 0 => .exhausted
  | i, fuel + 1 =>
    match env i with
    | none => swGo env fl ac (i + 1) fuel
    | some raw =>
      match unpack_packet raw with
      | .crash => .crash
      | .invalid => swGo env fl ac (i + 1) fuel
      | .ok p =>
        if flagReject fl p then swGo env fl ac (i + 1) fuel
        else if ackReject ac p then swGo env fl ac (i + 1) fuel
        else .got p

/-- `send_and_wait(sock, pkt, expected_flags, expected_ack)`: up to
`MAX_RETRIES` iterations of send / receive-or-timeout / filter. -/
def send_and_wait (env : Nat → Option (List Nat)) (fl ac : Option Nat) :
    SWResult :=
  swGo env fl ac 0 MAX_RETRIES

/-- Classification of one receive outcome by the loop body: `retry`
consumes an attempt (timeout, undecodable datagram, or filtered-out
packet), `crashed` raises out of the loop, `accepted p` returns `p`. -/
inductive EvClass where
  | retry : EvClass
  | crashed : EvClass
  | accepted : Packet → EvClass
deriving DecidableEq

/-- How the loop body of `send_and_wait` treats one receive outcome. -/
def classify (fl ac : Option Nat) (e : Option (List Nat)) : EvClass :=
  match e with
  | none => .retry
  | some raw =>
    match unpack_packet raw with
    | .crash => .crashed
    | .invalid => .retry
    | .ok p =>
      if flagReject fl p || ackReject ac p then .retry else .accepted p

/-! ## Responder state machine (`TCPLikeServer._handle_packet`) -/

/-- The per-peer dictionary stored in `self.connections` (server lines
69-74). -/
structure ConnState where
  peer_seq : Nat
  server_seq : Nat
  expected_seq : Nat
  established : Bool
deriving DecidableEq

/-- Effect of one `_handle_packet` call: the new connection table (peers
are modelled as naturals), the datagrams sent to the peer in order, and
whether the handler raised (an out-of-range `struct.pack`). -/
structure HandleOutput where
  conns : Nat → Option ConnState
  sent : List (List Nat)
  crashed : Bool

/-- `TCPLikeServer._handle_packet(pkt, peer)` (server lines 64-116).
`rand` is the value returned by `random.randint(0, 0x7fffffff)` for this
call.  Dictionary mutations through the aliased `state` are reflected in
the table even on paths that later raise. -/
def handle_packet (conns : Nat → Option ConnState) (pkt : Packet)
    (peer rand : Nat) : HandleOutput :=
  if pkt.flags &&& FLAG_SYN ≠ 0 then
    let state : ConnState := ⟨pkt.seq, rand, pkt.seq + 1, false⟩
    let conns2 := fun q => if q = peer then some state else conns q
    match pack_packet rand (pkt.seq + 1) (FLAG_SYN ||| FLAG_ACK) 1 [] with
    | some b => ⟨conns2, [b], false⟩
    | none => ⟨conns2, [], true⟩
  else
    match conns peer with
    | none => ⟨conns, [], false⟩
    | some state =>
      if pkt.flags &&& FLAG_ACK ≠ 0 ∧ state.established = false then
        if pkt.ack = state.server_seq + 1 then
          ⟨fun q => if q = peer then some { state with established := true }
            else conns q, [], false⟩
        else ⟨conns, [], false⟩
      else if state.established = true then
        if pkt.flags &&& FLAG_PSH ≠ 0 ∨ pkt.payload.length > 0 then
          if pkt.seq = state.expected_seq then
            let newExpected := state.expected_seq + pkt.payload.length
            let st2 := { state with expected_seq := newExpected }
            let conns2 := fun q => if q = peer then some st2 else conns q
            match pack_packet state.server_seq newExpected FLAG_ACK 1 []
              with
            | some b => ⟨conns2, [b], false⟩
            | none => ⟨conns2, [], true⟩
          else
            match pack_packet state.server_seq state.expected_seq FLAG_ACK 1 []
              with
            | some b => ⟨conns, [b], false⟩
            | none => ⟨conns, [], true⟩
        else if pkt.flags &&& FLAG_FIN ≠ 0 then
          let newExpected := state.expected_seq + 1
          let st2 := { state with expected_seq := newExpected }
          let connsMut := fun q => if q = peer then some st2 else conns q
          match pack_packet state.server_seq newExpected FLAG_ACK 1 []
            with
          | none => ⟨connsMut, [], true⟩
          | some ackb =>
            match pack_packet state.server_seq newExpected FLAG_FIN 1 []
              with
            | none => ⟨connsMut, [ackb], true⟩
            | some finb =>
              ⟨fun q => if q = peer then none else conns q, [ackb, finb],
                false⟩
        else ⟨conns, [], false⟩
      else ⟨conns, [], false⟩

/-! ## Concrete inputs used in counterexamples and witnesses -/

/-- A 15-byte datagram whose header declares `payload_len = 1` and whose
first 13 bytes checksum to `0xFEFF`, the big-endian value of its last two
bytes. -/
def c1raw : List Nat := [0, 0, 0, 0, 0, 0, 0, 0, 0, 0, 0, 0, 1, 254, 255]

/-- A valid 15-byte datagram: zero header (`payload_len = 0`) followed by
the checksum `0xFFFF` of its 13 zero bytes. -/
def c1ok : List Nat := [0, 0, 0, 0, 0, 0, 0, 0, 0, 0, 0, 0, 0, 255, 255]

/-- An environment that answers every receive with `c1raw`. -/
def env0 : Nat → Option (List Nat) := fun _ => some c1raw

/-- An environment with a timeout on the first receive and the valid
datagram `c1ok` afterwards. -/
def envRetryOk : Nat → Option (List Nat) :=
  fun i => if i = 0 then none else some c1ok

/-- A table holding one established connection for peer `0`
(`peer_seq = 100`, `server_seq = 7`, `expected_seq = 50`). -/
def conns0 : Nat → Option ConnState :=
  fun q => if q = 0 then some ⟨100, 7, 50, true⟩ else none

/-- A table holding one handshake-phase (not yet established) connection
for peer `0`. -/
def connsHs : Nat → Option ConnState :=
  fun q => if q = 0 then some ⟨100, 7, 101, false⟩ else none

/-- The empty connection table. -/
def connsEmpty : Nat → Option ConnState := fun _ => none

/-- An in-order PSH data packet for the `conns0` connection. -/
def pktData : Packet := ⟨50, 0, 8, 1, [104, 105, 106]⟩

/-- An out-of-order PSH data packet for the `conns0` connection. -/
def pktDataOoo : Packet := ⟨49, 0, 8, 1, [104, 105, 106]⟩

/-- The correct handshake ACK for the `connsHs` connection
(`ack = server_seq + 1 = 8`). -/
def pktAckHs : Packet := ⟨101, 8, 2, 1, []⟩

/-- A FIN (empty payload, no PSH) whose sequence `51` differs from the
`conns0` connection's `expected_seq = 50`. -/
def pktFin : Packet := ⟨51, 0, 4, 1, []⟩

/-- A plain ACK (empty payload, no PSH, no FIN) on an established
connection. -/
def pktAck : Packet := ⟨50, 8, 2, 1, []⟩

/-- A SYN packet. -/
def pktSyn : Packet := ⟨1000, 0, 1, 1, []⟩

/-- A SYN packet carrying the largest `u32` sequence number. -/
def pktSynMax : Packet := ⟨4294967295, 0, 1, 0, []⟩

/-- A table holding one established connection for peer `0` whose
`expected_seq` sits at the largest `u32` value (reachable, e.g., from a
SYN carrying sequence `2^32 - 2` after handshake completion). -/
def connsMax : Nat → Option ConnState :=
  fun q => if q = 0 then some ⟨100, 7, 4294967295, true⟩ else none

/-- An in-order one-byte data packet for the `connsMax` connection. -/
def pktDataMax : Packet := ⟨4294967295, 0, 8, 1, [104]⟩

/-- A FIN whose sequence equals the `connsMax` connection's
`expected_seq`. -/
def pktFinMax : Packet := ⟨4294967295, 0, 4, 1, []⟩

/-- A FIN whose sequence differs from the `connsMax` connection's
`expected_seq`. -/
def pktFinMaxOoo : Packet := ⟨7, 0, 4, 1, []⟩

/-! ## Checksum lemmas -/

theorem pyNot16_lt (s : Nat) : pyNot16 s < 65536 := by
  unfold pyNot16
  omega

theorem pyNot16_eq (s : Nat) (h : s ≤ 65535) : pyNot16 s = 65535 - s := by
  unfold pyNot16
  omega

theorem checksum_lt (data : List Nat) : checksum data < 65536 :=
  pyNot16_lt _

theorem foldCarry_lt (s : Nat) : foldCarry s < 65536 := by
  induction s using foldCarry.induct with
  | case1 s h => rw [foldCarry, if_pos h]; exact h
  | case2 s h ih => rw [foldCarry, if_neg h]; exact ih

theorem foldCarry_mod (s : Nat) : foldCarry s % 65535 = s % 65535 := by
  induction s using foldCarry.induct with
  | case1 s h => rw [foldCarry, if_pos h]
  | case2 s h ih => rw [foldCarry, if_neg h]; omega

theorem foldCarry_eq_zero (s : Nat) : foldCarry s = 0 ↔ s = 0 := by
  induction s using foldCarry.induct with
  | case1 s h => rw [foldCarry, if_pos h]
  | case2 s h ih => rw [foldCarry, if_neg h]; omega

theorem toWords_le (data : List Nat) (hb : ∀ b ∈ data, b ≤ 255) :
    ∀ w ∈ toWords data, w ≤ 65535 := by
  induction data using toWords.induct with
  | case1 => intro w hw; simp [toWords] at hw
  | case2 b0 =>
    intro w hw
    simp only [toWords, List.mem_singleton] at hw
    have := hb b0 (by simp)
    omega
  | case3 b0 b1 rest ih =>
    intro w hw
    simp only [toWords, List.mem_cons] at hw
    rcases hw with h | h
    · have h0 := hb b0 (by simp)
      have h1 := hb b1 (by simp)
      omega
    · exact ih (fun b hbm => hb b (by simp [hbm])) w h

theorem checksumAux_spec (data : List Nat) (s : Nat) :
    (∀ b ∈ data, b ≤ 255) → s ≤ 65535 →
    checksumAux data s ≤ 65535 ∧
    checksumAux data s % 65535 = (s + (toWords data).sum) % 65535 ∧
    (checksumAux data s = 0 ↔ s + (toWords data).sum = 0) := by
  induction data, s using checksumAux.induct with
  | case1 s =>
    intro hb hs
    simp [checksumAux, toWords]
    omega
  | case2 b0 s =>
    intro hb hs
    have h0 := hb b0 (by simp)
    simp only [checksumAux, toWords, List.sum_cons, List.sum_nil, foldStep]
    omega
  | case3 b0 b1 rest s ih =>
    intro hb hs
    have h0 := hb b0 (by simp)
    have h1 := hb b1 (by simp)
    have hrest : ∀ b ∈ rest, b ≤ 255 := fun b hbm => hb b (by simp [hbm])
    have hstep : foldStep (s + (b0 * 256 + b1)) ≤ 65535 := by
      unfold foldStep; omega
    obtain ⟨ha, hm, hz⟩ := ih hrest hstep
    refine ⟨ha, ?_, ?_⟩
    · simp only [checksumAux]
      rw [hm]
      simp only [toWords, List.sum_cons, foldStep]
      omega
    · simp only [checksumAux]
      rw [hz]
      simp only [toWords, List.sum_cons, foldStep]
      omega

theorem mod65535_unique (x y : Nat) (hx : x < 65536) (hy : y < 65536)
    (hm : x % 65535 = y % 65535) (hz : x = 0 ↔ y = 0) : x = y := by
  omega

theorem checksum_eq_ref (data : List Nat) (hb : ∀ b ∈ data, b ≤ 255) :
    checksum data = refChecksum data := by
  obtain ⟨ha, hm, hz⟩ := checksumAux_spec data 0 hb (by omega)
  have hsum : checksumAux data 0 = foldCarry (toWords data).sum := by
    refine mod65535_unique _ _ (by omega) (foldCarry_lt _) ?_ ?_
    · rw [hm, foldCarry_mod]; omega
    · rw [hz, foldCarry_eq_zero]; omega
  unfold checksum refChecksum
  rw [pyNot16_eq _ ha, hsum]

/-! ## Encode/decode round trip -/

theorem unpack_append_bytes (seq ack flags wnd cks : Nat) (payload : List Nat)
    (h1 : seq ≤ 0xffffffff) (h2 : ack ≤ 0xffffffff) (h3 : flags ≤ 0xff)
    (h4 : wnd ≤ 0xffff) (h5 : payload.length ≤ 0xffff) (h6 : cks < 65536)
    (h7 : checksum ((bytes32 seq ++ bytes32 ack ++ [flags] ++ bytes16 wnd ++
      bytes16 payload.length) ++ payload) = cks) :
    unpack_packet (((bytes32 seq ++ bytes32 ack ++ [flags] ++ bytes16 wnd ++
      bytes16 payload.length) ++ payload) ++ bytes16 cks) =
      .ok ⟨seq, ack, flags, wnd, payload⟩ := by
  have hh : (bytes32 seq ++ bytes32 ack ++ [flags] ++ bytes16 wnd ++
      bytes16 payload.length).length = 13 := by
    simp [bytes32, bytes16]
  set hdr := bytes32 seq ++ bytes32 ack ++ [flags] ++ bytes16 wnd ++
    bytes16 payload.length with hhdr
  set raw := (hdr ++ payload) ++ bytes16 cks with hraw
  have hlen : raw.length = payload.length + 15 := by
    rw [hraw]
    simp [hh, bytes16]
    omega
  have g0 : raw.getD 0 0 = seq / 16777216 % 256 := rfl
  have g1 : raw.getD 1 0 = seq / 65536 % 256 := rfl
  have g2 : raw.getD 2 0 = seq / 256 % 256 := rfl
  have g3 : raw.getD 3 0 = seq % 256 := rfl
  have g4 : raw.getD 4 0 = ack / 16777216 % 256 := rfl
  have g5 : raw.getD 5 0 = ack / 65536 % 256 := rfl
  have g6 : raw.getD 6 0 = ack / 256 % 256 := rfl
  have g7 : raw.getD 7 0 = ack % 256 := rfl
  have g8 : raw.getD 8 0 = flags := rfl
  have g9 : raw.getD 9 0 = wnd / 256 % 256 := rfl
  have g10 : raw.getD 10 0 = wnd % 256 := rfl
  have g11 : raw.getD 11 0 = payload.length / 256 % 256 := rfl
  have g12 : raw.getD 12 0 = payload.length % 256 := rfl
  have hpl : payloadLenOf raw = payload.length := by
    unfold payloadLenOf
    rw [g11, g12]
    omega
  have hpay : pySlice raw 13 (13 + payload.length) = payload := by
    unfold pySlice
    have htake : raw.take (13 + payload.length) = hdr ++ payload := by
      rw [hraw]
      apply List.take_left'
      simp [hh]
    rw [htake]
    apply List.drop_left'
    exact hh
  have hcksb : pySlice raw (13 + payload.length) (13 + payload.length + 2) =
      bytes16 cks := by
    unfold pySlice
    have htake : raw.take (13 + payload.length + 2) = raw := by
      apply List.take_of_length_le
      omega
    rw [htake, hraw]
    apply List.drop_left'
    simp [hh]
  have hbody : raw.take (13 + payload.length) = hdr ++ payload := by
    rw [hraw]
    apply List.take_left'
    simp [hh]
  simp only [unpack_packet, HDR_SIZE]
  rw [hlen]
  rw [if_neg (by omega)]
  rw [hpl, g0, g1, g2, g3, g4, g5, g6, g7, g8, g9, g10, hpay, hcksb, hbody]
  rw [if_neg (by simp [bytes16])]
  have hc0 : (bytes16 cks).getD 0 0 = cks / 256 % 256 := rfl
  have hc1 : (bytes16 cks).getD 1 0 = cks % 256 := rfl
  rw [hc0, hc1, h7]
  rw [if_neg (by omega)]
  have e1 : seq / 16777216 % 256 * 16777216 + seq / 65536 % 256 * 65536 +
      seq / 256 % 256 * 256 + seq % 256 = seq := by omega
  have e2 : ack / 16777216 % 256 * 16777216 + ack / 65536 % 256 * 65536 +
      ack / 256 % 256 * 256 + ack % 256 = ack := by omega
  have e3 : wnd / 256 % 256 * 256 + wnd % 256 = wnd := by omega
  rw [e1, e2, e3]

theorem pack_unpack (seq ack flags wnd : Nat) (payload : List Nat)
    (h1 : seq ≤ 0xffffffff) (h2 : ack ≤ 0xffffffff) (h3 : flags ≤ 0xff)
    (h4 : wnd ≤ 0xffff) (h5 : payload.length ≤ 0xffff) :
    ∃ raw, pack_packet seq ack flags wnd payload = some raw ∧
      unpack_packet raw = .ok ⟨seq, ack, flags, wnd, payload⟩ := by
  refine ⟨((bytes32 seq ++ bytes32 ack ++ [flags] ++ bytes16 wnd ++
    bytes16 payload.length) ++ payload) ++
    bytes16 (checksum ((bytes32 seq ++ bytes32 ack ++ [flags] ++ bytes16 wnd ++
      bytes16 payload.length) ++ payload)), ?_, ?_⟩
  · rw [pack_packet, if_pos ⟨h1, h2, h3, h4, h5⟩]
  · exact unpack_append_bytes seq ack flags wnd _ payload h1 h2 h3 h4 h5
      (checksum_lt _) rfl

theorem pySlice_length (raw : List Nat) (a b : Nat) :
    (pySlice raw a b).length = min b raw.length - a := by
  simp [pySlice]

theorem pySlice_getD (raw : List Nat) (a b i d : Nat) (h : a + i < b) :
    (pySlice raw a b).getD i d = raw.getD (a + i) d := by
  unfold pySlice
  rw [List.getD_eq_getElem?_getD, List.getD_eq_getElem?_getD,
    List.getElem?_drop, List.getElem?_take]
  simp [h]

theorem unpack_packet_cases (raw : List Nat) :
    unpack_packet raw =
      if raw.length < 15 then .invalid
      else if (pySlice raw (13 + payloadLenOf raw)
          (13 + payloadLenOf raw + 2)).length ≠ 2 then .crash
      else if checksum (raw.take (13 + payloadLenOf raw)) ≠
          (pySlice raw (13 + payloadLenOf raw)
            (13 + payloadLenOf raw + 2)).getD 0 0 * 256 +
          (pySlice raw (13 + payloadLenOf raw)
            (13 + payloadLenOf raw + 2)).getD 1 0 then .invalid
      else .ok ⟨raw.getD 0 0 * 16777216 + raw.getD 1 0 * 65536 +
          raw.getD 2 0 * 256 + raw.getD 3 0,
        raw.getD 4 0 * 16777216 + raw.getD 5 0 * 65536 +
          raw.getD 6 0 * 256 + raw.getD 7 0,
        raw.getD 8 0, raw.getD 9 0 * 256 + raw.getD 10 0,
        pySlice raw 13 (13 + payloadLenOf raw)⟩ := rfl

/-- Claim C1 (amended): `unpack_packet` returns `None` exactly when the
datagram is shorter than 15 bytes, or when the two checksum bytes at
offset `13 + payload_len` exist and the checksum recomputed over
`raw[:13+payload_len]` differs from them (bytes past offset
`13 + payload_len + 2` are ignored); when the datagram has at least 15
bytes but fewer than `13 + payload_len + 2`, `struct.unpack` raises
instead of returning; in every other case it returns the populated
packet.  It has no side effects. -/
theorem claim_C1 (raw : List Nat) :
    (unpack_packet raw = .invalid ↔
      raw.length < 15 ∨
        (13 + payloadLenOf raw + 2 ≤ raw.length ∧
          checksum (raw.take (13 + payloadLenOf raw)) ≠
            raw.getD (13 + payloadLenOf raw) 0 * 256 +
              raw.getD (13 + payloadLenOf raw + 1) 0)) ∧
    (unpack_packet raw = .crash ↔
      15 ≤ raw.length ∧ raw.length < 13 + payloadLenOf raw + 2) ∧
    (15 ≤ raw.length → 13 + payloadLenOf raw + 2 ≤ raw.length →
      checksum (raw.take (13 + payloadLenOf raw)) =
        raw.getD (13 + payloadLenOf raw) 0 * 256 +
          raw.getD (13 + payloadLenOf raw + 1) 0 →
      unpack_packet raw = .ok ⟨raw.getD 0 0 * 16777216 +
          raw.getD 1 0 * 65536 + raw.getD 2 0 * 256 + raw.getD 3 0,
        raw.getD 4 0 * 16777216 + raw.getD 5 0 * 65536 +
          raw.getD 6 0 * 256 + raw.getD 7 0,
        raw.getD 8 0, raw.getD 9 0 * 256 + raw.getD 10 0,
        pySlice raw 13 (13 + payloadLenOf raw)⟩) := by
  rw [unpack_packet_cases raw]
  have hslen := pySlice_length raw (13 + payloadLenOf raw)
    (13 + payloadLenOf raw + 2)
  by_cases h1 : raw.length < 15
  · rw [if_pos h1]
    refine ⟨⟨fun _ => Or.inl h1, fun _ => rfl⟩, ?_, ?_⟩
    · simp only [iff_iff_implies_and_implies]
      constructor
      · intro h; exact absurd h (by simp)
      · intro h; omega
    · intro ha hb hc; omega
  · rw [if_neg h1]
    by_cases h2 : raw.length < 13 + payloadLenOf raw + 2
    · rw [if_pos (by rw [hslen]; omega)]
      refine ⟨?_, ?_, ?_⟩
      · simp only [iff_iff_implies_and_implies]
        constructor
        · intro h; exact absurd h (by simp)
        · intro h; rcases h with h | ⟨h, _⟩ <;> omega
      · simp only [true_iff]
        omega
      · intro ha hb hc; omega
    · rw [if_neg (by rw [hslen]; omega)]
      rw [pySlice_getD raw _ _ 0 0 (by omega), pySlice_getD raw _ _ 1 0
        (by omega)]
      simp only [Nat.add_zero]
      by_cases h3 : checksum (raw.take (13 + payloadLenOf raw)) =
          raw.getD (13 + payloadLenOf raw) 0 * 256 +
            raw.getD (13 + payloadLenOf raw + 1) 0
      · rw [if_neg (by omega)]
        refine ⟨?_, ?_, fun _ _ _ => rfl⟩
        · simp only [iff_iff_implies_and_implies]
          constructor
          · intro h; exact absurd h (by simp)
          · intro h; rcases h with h | ⟨_, h⟩ <;> omega
        · simp only [iff_iff_implies_and_implies]
          constructor
          · intro h; exact absurd h (by simp)
          · intro h; omega
      · rw [if_pos (by omega)]
        refine ⟨⟨fun _ => Or.inr ⟨by omega, h3⟩, fun _ => rfl⟩, ?_, ?_⟩
        · simp only [iff_iff_implies_and_implies]
          constructor
          · intro h; exact absurd h (by simp)
          · intro h; omega
        · intro ha hb hc; omega

/-- Claim C1 counterexample: the 15-byte datagram `c1raw` is not shorter
than header+trailer and the checksum recomputed over `c1raw` minus its
trailing 2 bytes matches those trailing 2 bytes, so the claim requires a
populated packet; `unpack_packet` instead raises `struct.error` (its
header declares `payload_len = 1`, so the checksum bytes are read past
the end of the datagram). -/
theorem claim_C1_counterexample :
    (¬ (c1raw.length < 15 ∨
      checksum (c1raw.take (c1raw.length - 2)) ≠
        c1raw.getD 13 0 * 256 + c1raw.getD 14 0)) ∧
    unpack_packet c1raw = .crash := by decide

/-- Claim C1 witness: a concrete well-formed datagram decoded through the
third branch of `claim_C1`. -/
theorem claim_C1_witness : unpack_packet c1ok = .ok ⟨0, 0, 0, 0, []⟩ :=
  (claim_C1 c1ok).2.2 (by decide) (by decide) (by decide)

/-- Claim C2: for every sequence, acknowledgment, flags and window in
their field ranges (u32, u32, u8, u16) and every payload of at most 65535
bytes, decoding the bytes produced by `pack_packet` succeeds and
reproduces exactly the same sequence, acknowledgment, flags, window and
payload. -/
theorem claim_C2 (seq ack flags wnd : Nat) (payload : List Nat)
    (hb : ∀ b ∈ payload, b ≤ 255)
    (h1 : seq ≤ 0xffffffff) (h2 : ack ≤ 0xffffffff) (h3 : flags ≤ 0xff)
    (h4 : wnd ≤ 0xffff) (h5 : payload.length ≤ 0xffff) :
    ∃ raw, pack_packet seq ack flags wnd payload = some raw ∧
      unpack_packet raw = .ok ⟨seq, ack, flags, wnd, payload⟩ :=
  pack_unpack seq ack flags wnd payload h1 h2 h3 h4 h5

/-- Claim C2 witness: the round trip evaluated at a concrete packet. -/
theorem claim_C2_witness :
    ∃ raw, pack_packet 7 9 8 1 [104, 105] = some raw ∧
      unpack_packet raw = .ok ⟨7, 9, 8, 1, [104, 105]⟩ :=
  claim_C2 7 9 8 1 [104, 105] (by decide) (by decide) (by decide)
    (by decide) (by decide) (by decide)

/-- Claim C3: for every byte string, `checksum` returns a value in
`[0, 65535]` equal to the reference 16-bit ones-complement checksum
`refChecksum` (16-bit big-endian words, trailing odd byte zero-padded,
carries repeatedly folded back, result complemented). -/
theorem claim_C3 (data : List Nat) (hb : ∀ b ∈ data, b ≤ 255) :
    checksum data ≤ 65535 ∧ checksum data = refChecksum data :=
  ⟨by have := checksum_lt data; omega, checksum_eq_ref data hb⟩

/-- Claim C3 witness: the checksum of a concrete byte string agrees with
the reference definition. -/
theorem claim_C3_witness :
    checksum [1, 2, 3] ≤ 65535 ∧ checksum [1, 2, 3] = refChecksum [1, 2, 3] :=
  claim_C3 [1, 2, 3] (by decide)

/-! ## Lemmas on the retry loop -/

theorem firstIdx_succ (C : Nat → EvClass) (i fuel : Nat) (t : EvClass)
    (hc : C i = .retry) (hne : t ≠ .retry) :
    (∃ j, j < fuel ∧ C (i + 1 + j) = t ∧ ∀ k, k < j → C (i + 1 + k) = .retry)
      ↔
    (∃ j, j < fuel + 1 ∧ C (i + j) = t ∧ ∀ k, k < j → C (i + k) = .retry) := by
  constructor
  · rintro ⟨j, hj, ht, hr⟩
    refine ⟨j + 1, by omega, ?_, ?_⟩
    · have he : i + (j + 1) = i + 1 + j := by omega
      rw [he]; exact ht
    · intro k hk
      cases k with
      | zero => rw [Nat.add_zero]; exact hc
      | succ k' =>
        have he : i + (k' + 1) = i + 1 + k' := by omega
        rw [he]; exact hr k' (by omega)
  · rintro ⟨j, hj, ht, hr⟩
    cases j with
    | zero =>
      rw [Nat.add_zero, hc] at ht
      exact absurd ht.symm hne
    | succ j' =>
      refine ⟨j', by omega, ?_, ?_⟩
      · have he : i + 1 + j' = i + (j' + 1) := by omega
        rw [he]; exact ht
      · intro k hk
        have he : i + 1 + k = i + (k + 1) := by omega
        rw [he]; exact hr (k + 1) (by omega)

theorem allRetry_succ (C : Nat → EvClass) (i fuel : Nat)
    (hc : C i = .retry) :
    (∀ j, j < fuel → C (i + 1 + j) = .retry) ↔
    (∀ j, j < fuel + 1 → C (i + j) = .retry) := by
  constructor
  · intro h j hj
    cases j with
    | zero => rw [Nat.add_zero]; exact hc
    | succ j' =>
      have he : i + (j' + 1) = i + 1 + j' := by omega
      rw [he]; exact h j' (by omega)
  · intro h j hj
    have he : i + 1 + j = i + (j + 1) := by omega
    rw [he]; exact h (j + 1) (by omega)

theorem noFirst_of_stuck (C : Nat → EvClass) (i fuel : Nat) (t t0 : EvClass)
    (hc : C i = t0) (h0 : t0 ≠ .retry) (hne : t ≠ t0) :
    ¬ (∃ j, j < fuel + 1 ∧ C (i + j) = t ∧
        ∀ k, k < j → C (i + k) = .retry) := by
  rintro ⟨j, hj, ht, hr⟩
  cases j with
  | zero => rw [Nat.add_zero, hc] at ht; exact hne ht.symm
  | succ j' =>
    have h1 := hr 0 (by omega)
    rw [Nat.add_zero, hc] at h1
    exact h0 h1

theorem noAllRetry_of_stuck (C : Nat → EvClass) (i fuel : Nat)
    (t0 : EvClass) (hc : C i = t0) (h0 : t0 ≠ .retry) :
    ¬ (∀ j, j < fuel + 1 → C (i + j) = .retry) := by
  intro h
  have h1 := h 0 (by omega)
  rw [Nat.add_zero, hc] at h1
  exact h0 h1

theorem first_here (C : Nat → EvClass) (i fuel : Nat) (t : EvClass)
    (hc : C i = t) :
    ∃ j, j < fuel + 1 ∧ C (i + j) = t ∧
      ∀ k, k < j → C (i + k) = .retry :=
  ⟨0, by omega, by rw [Nat.add_zero]; exact hc,
    fun k hk => absurd hk (by omega)⟩

theorem swGo_char (env : Nat → Option (List Nat)) (fl ac : Option Nat) :
    ∀ (fuel i : Nat),
    (∀ p, swGo env fl ac i fuel = .got p ↔
      ∃ j, j < fuel ∧ classify fl ac (env (i + j)) = .accepted p ∧
        ∀ k, k < j → classify fl ac (env (i + k)) = .retry) ∧
    (swGo env fl ac i fuel = .exhausted ↔
      ∀ j, j < fuel → classify fl ac (env (i + j)) = .retry) ∧
    (swGo env fl ac i fuel = .crash ↔
      ∃ j, j < fuel ∧ classify fl ac (env (i + j)) = .crashed ∧
        ∀ k, k < j → classify fl ac (env (i + k)) = .retry) := by
  intro fuel
  induction fuel with
  | zero =>
    intro i
    refine ⟨fun p => ?_, ?_, ?_⟩
    · rw [show swGo env fl ac i 0 = SWResult.exhausted from rfl]
      constructor
      · intro h; exact absurd h (by simp)
      · rintro ⟨j, hj, _⟩; omega
    · rw [show swGo env fl ac i 0 = SWResult.exhausted from rfl]
      constructor
      · intro _ j hj; omega
      · intro _; rfl
    · rw [show swGo env fl ac i 0 = SWResult.exhausted from rfl]
      constructor
      · intro h; exact absurd h (by simp)
      · rintro ⟨j, hj, _⟩; omega
  | succ fuel ih =>
    intro i
    obtain ⟨ihg, ihe, ihc⟩ := ih (i + 1)
    cases he : env i with
    | none =>
      have hstep : swGo env fl ac i (fuel + 1) = swGo env fl ac (i + 1) fuel :=
        by simp [swGo, he]
      have hcl : classify fl ac (env i) = .retry := by simp [classify, he]
      refine ⟨fun p => ?_, ?_, ?_⟩
      · rw [hstep, ihg p]
        exact firstIdx_succ (fun n => classify fl ac (env n)) i fuel _ hcl (by simp)
      · rw [hstep, ihe]
        exact allRetry_succ (fun n => classify fl ac (env n)) i fuel hcl
      · rw [hstep, ihc]
        exact firstIdx_succ (fun n => classify fl ac (env n)) i fuel _ hcl (by simp)
    | some raw =>
      cases hu : unpack_packet raw with
      | crash =>
        have hstep : swGo env fl ac i (fuel + 1) = .crash := by
          simp [swGo, he, hu]
        have hcl : classify fl ac (env i) = .crashed := by
          simp [classify, he, hu]
        refine ⟨fun p => ?_, ?_, ?_⟩
        · rw [hstep]
          exact iff_of_false (by simp)
            (noFirst_of_stuck (fun n => classify fl ac (env n)) i fuel _ _ hcl (by simp) (by simp))
        · rw [hstep]
          exact iff_of_false (by simp)
            (noAllRetry_of_stuck (fun n => classify fl ac (env n)) i fuel _ hcl (by simp))
        · rw [hstep]
          exact iff_of_true rfl (first_here (fun n => classify fl ac (env n)) i fuel _ hcl)
      | invalid =>
        have hstep : swGo env fl ac i (fuel + 1) =
            swGo env fl ac (i + 1) fuel := by simp [swGo, he, hu]
        have hcl : classify fl ac (env i) = .retry := by
          simp [classify, he, hu]
        refine ⟨fun p => ?_, ?_, ?_⟩
        · rw [hstep, ihg p]
          exact firstIdx_succ (fun n => classify fl ac (env n)) i fuel _ hcl (by simp)
        · rw [hstep, ihe]
          exact allRetry_succ (fun n => classify fl ac (env n)) i fuel hcl
        · rw [hstep, ihc]
          exact firstIdx_succ (fun n => classify fl ac (env n)) i fuel _ hcl (by simp)
      | ok p0 =>
        by_cases hf : flagReject fl p0 = true
        · have hstep : swGo env fl ac i (fuel + 1) =
              swGo env fl ac (i + 1) fuel := by simp [swGo, he, hu, hf]
          have hcl : classify fl ac (env i) = .retry := by
            simp [classify, he, hu, hf]
          refine ⟨fun p => ?_, ?_, ?_⟩
          · rw [hstep, ihg p]
            exact firstIdx_succ (fun n => classify fl ac (env n)) i fuel _ hcl (by simp)
          · rw [hstep, ihe]
            exact allRetry_succ (fun n => classify fl ac (env n)) i fuel hcl
          · rw [hstep, ihc]
            exact firstIdx_succ (fun n => classify fl ac (env n)) i fuel _ hcl (by simp)
        · by_cases ha2 : ackReject ac p0 = true
          · have hstep : swGo env fl ac i (fuel + 1) =
                swGo env fl ac (i + 1) fuel := by simp [swGo, he, hu, hf, ha2]
            have hcl : classify fl ac (env i) = .retry := by
              simp [classify, he, hu, hf, ha2]
            refine ⟨fun p => ?_, ?_, ?_⟩
            · rw [hstep, ihg p]
              exact firstIdx_succ (fun n => classify fl ac (env n)) i fuel _ hcl (by simp)
            · rw [hstep, ihe]
              exact allRetry_succ (fun n => classify fl ac (env n)) i fuel hcl
            · rw [hstep, ihc]
              exact firstIdx_succ (fun n => classify fl ac (env n)) i fuel _ hcl (by simp)
          · have hstep : swGo env fl ac i (fuel + 1) = .got p0 := by
              simp [swGo, he, hu, hf, ha2]
            have hcl : classify fl ac (env i) = .accepted p0 := by
              simp [classify, he, hu, hf, ha2]
            refine ⟨fun p => ?_, ?_, ?_⟩
            · rw [hstep]
              constructor
              · intro h
                have hp : p0 = p := by simpa using h
                rw [← hp]
                exact first_here (fun n => classify fl ac (env n)) i fuel _ hcl
              · rintro ⟨j, hj, ht, hr⟩
                cases j with
                | zero =>
                  rw [Nat.add_zero, hcl] at ht
                  have hp : p0 = p := by simpa using ht
                  rw [hp]
                | succ j' =>
                  have h1 := hr 0 (by omega)
                  rw [Nat.add_zero, hcl] at h1
                  exact absurd h1 (by simp)
            · rw [hstep]
              exact iff_of_false (by simp)
                (noAllRetry_of_stuck (fun n => classify fl ac (env n)) i fuel _ hcl (by simp))
            · rw [hstep]
              exact iff_of_false (by simp)
                (noFirst_of_stuck (fun n => classify fl ac (env n)) i fuel _ _ hcl (by simp) (by simp))

/-- Claim C4 (amended): `send_and_wait` makes up to `MAX_RETRIES = 5`
attempts, re-sending the same original packet each attempt; a received
datagram is accepted only if it decodes successfully and passes the
`expected_flags` and `expected_ack` filters; a timeout or a rejected
datagram consumes one attempt; the call returns the first accepted packet,
`None` after exhausting all attempts — or, when a received datagram of at
least 15 bytes declares more payload than it carries, the `struct.error`
raised by `unpack_packet` propagates out of the loop instead. -/
theorem claim_C4 (env : Nat → Option (List Nat)) (fl ac : Option Nat) :
    (∀ p, send_and_wait env fl ac = .got p ↔
      ∃ j, j < MAX_RETRIES ∧ classify fl ac (env j) = .accepted p ∧
        ∀ k, k < j → classify fl ac (env k) = .retry) ∧
    (send_and_wait env fl ac = .exhausted ↔
      ∀ j, j < MAX_RETRIES → classify fl ac (env j) = .retry) ∧
    (send_and_wait env fl ac = .crash ↔
      ∃ j, j < MAX_RETRIES ∧ classify fl ac (env j) = .crashed ∧
        ∀ k, k < j → classify fl ac (env k) = .retry) := by
  obtain ⟨hg, he, hc⟩ := swGo_char env fl ac MAX_RETRIES 0
  refine ⟨fun p => ?_, ?_, ?_⟩
  · have h := hg p
    simpa [send_and_wait] using h
  · simpa [send_and_wait] using he
  · simpa [send_and_wait] using hc

/-- Claim C4 counterexample: an environment that always delivers the
crash-inducing datagram `c1raw` makes `send_and_wait` propagate a
`struct.error` — it neither returns an accepted packet nor `None` after
exhausting its attempts. -/
theorem claim_C4_counterexample :
    send_and_wait env0 none none = .crash ∧
    unpack_packet c1raw = .crash := by decide

/-- Claim C4 witness: a timeout consumes the first attempt and the valid
datagram that follows is accepted on the second. -/
theorem claim_C4_witness :
    send_and_wait envRetryOk none none = .got ⟨0, 0, 0, 0, []⟩ := by
  refine ((claim_C4 envRetryOk none none).1 ⟨0, 0, 0, 0, []⟩).mpr
    ⟨1, by decide, by decide, ?_⟩
  intro k hk
  have hk0 : k = 0 := by omega
  rw [hk0]
  decide

/-! ## Responder state machine lemmas -/

theorem handle_unknown (conns : Nat → Option ConnState) (pkt : Packet)
    (peer rand : Nat) (hnone : conns peer = none)
    (hsyn : pkt.flags &&& FLAG_SYN = 0) :
    handle_packet conns pkt peer rand = ⟨conns, [], false⟩ := by
  unfold handle_packet
  rw [if_neg (not_ne_iff.mpr hsyn), hnone]

/-- Claim C10: on an established connection, a packet with the ACK flag
set, an empty payload and neither PSH nor FIN (nor SYN) leaves the
connection table unchanged and produces no reply and no crash. -/
theorem claim_C10 (conns : Nat → Option ConnState) (pkt : Packet)
    (peer rand : Nat) (st : ConnState)
    (hc : conns peer = some st) (hest : st.established = true)
    (hackf : pkt.flags &&& FLAG_ACK ≠ 0)
    (hsyn : pkt.flags &&& FLAG_SYN = 0)
    (hpsh : pkt.flags &&& FLAG_PSH = 0)
    (hfin : pkt.flags &&& FLAG_FIN = 0)
    (hpay : pkt.payload = []) :
    handle_packet conns pkt peer rand = ⟨conns, [], false⟩ := by
  unfold handle_packet
  rw [if_neg (not_ne_iff.mpr hsyn), hc]
  simp [hest, hpsh, hfin, hpay]

/-- Claim C10 witness: a plain ACK on the established `conns0` connection
is a no-op. -/
theorem claim_C10_witness :
    handle_packet conns0 pktAck 0 0 = ⟨conns0, [], false⟩ :=
  claim_C10 conns0 pktAck 0 0 ⟨100, 7, 50, true⟩ rfl rfl (by decide)
    (by decide) (by decide) (by decide) rfl

/-- Claim C7: a connection in the handshake phase becomes established
exactly when an ACK (non-SYN) packet with `acknowledgment =
local_sequence + 1` arrives; a mismatched acknowledgment causes no state
change and no reply. -/
theorem claim_C7 (conns : Nat → Option ConnState) (pkt : Packet)
    (peer rand : Nat) (st : ConnState)
    (hc : conns peer = some st) (hest : st.established = false)
    (hsyn : pkt.flags &&& FLAG_SYN = 0)
    (hackf : pkt.flags &&& FLAG_ACK ≠ 0) :
    (pkt.ack = st.server_seq + 1 →
      (handle_packet conns pkt peer rand).conns peer =
        some { st with established := true } ∧
      (∀ q, q ≠ peer →
        (handle_packet conns pkt peer rand).conns q = conns q) ∧
      (handle_packet conns pkt peer rand).sent = [] ∧
      (handle_packet conns pkt peer rand).crashed = false) ∧
    (pkt.ack ≠ st.server_seq + 1 →
      handle_packet conns pkt peer rand = ⟨conns, [], false⟩) := by
  unfold handle_packet
  rw [if_neg (not_ne_iff.mpr hsyn)]
  simp only [hc]
  rw [if_pos ⟨hackf, hest⟩]
  constructor
  · intro hack
    rw [if_pos hack]
    refine ⟨by simp, fun q hq => by simp [hq], rfl, rfl⟩
  · intro hack
    rw [if_neg hack]

/-- Claim C7 witness: the matching handshake ACK establishes the
`connsHs` connection. -/
theorem claim_C7_witness :
    (handle_packet connsHs pktAckHs 0 0).conns 0 = some ⟨100, 7, 101, true⟩ :=
  ((claim_C7 connsHs pktAckHs 0 0 ⟨100, 7, 101, false⟩ rfl rfl (by decide)
    (by decide)).1 rfl).1

/-- Claim C5 (amended): every packet with the SYN flag set and
`sequence < 2^32 - 1` makes the responder create or overwrite the
connection for that peer with `peer_seq = sequence`, a caller-supplied
fresh `server_seq = rand`, `expected_seq = sequence + 1`, and reply with
exactly one SYN|ACK carrying `sequence = rand` and
`acknowledgment = sequence + 1`; when `sequence = 2^32 - 1` the reply's
`struct.pack` raises and no SYN|ACK is sent (though the connection is
still created). -/
theorem claim_C5 (conns : Nat → Option ConnState) (pkt : Packet)
    (peer rand : Nat) (hsyn : pkt.flags &&& FLAG_SYN ≠ 0)
    (hrand : rand ≤ 0x7fffffff) (hseq : pkt.seq + 1 ≤ 0xffffffff) :
    (handle_packet conns pkt peer rand).conns peer =
      some ⟨pkt.seq, rand, pkt.seq + 1, false⟩ ∧
    (∀ q, q ≠ peer →
      (handle_packet conns pkt peer rand).conns q = conns q) ∧
    (handle_packet conns pkt peer rand).crashed = false ∧
    ∃ b, (handle_packet conns pkt peer rand).sent = [b] ∧
      unpack_packet b =
        .ok ⟨rand, pkt.seq + 1, FLAG_SYN ||| FLAG_ACK, 1, []⟩ := by
  obtain ⟨b, hpack, hunp⟩ := pack_unpack rand (pkt.seq + 1)
    (FLAG_SYN ||| FLAG_ACK) 1 [] (by omega) hseq (by decide) (by decide)
    (by decide)
  unfold handle_packet
  rw [if_pos hsyn, hpack]
  exact ⟨by simp, fun q hq => by simp [hq], rfl, b, rfl, hunp⟩

/-- Claim C5 counterexample: a SYN carrying the largest `u32` sequence
number makes the reply's `struct.pack` raise — no SYN|ACK is sent, so the
handler does not reply with exactly one SYN|ACK packet. -/
theorem claim_C5_counterexample :
    (pktSynMax.flags &&& FLAG_SYN ≠ 0) ∧
    (handle_packet connsEmpty pktSynMax 0 0).sent = [] ∧
    (handle_packet connsEmpty pktSynMax 0 0).crashed = true := by decide

/-- Claim C5 witness: a fresh SYN creates the expected connection
state. -/
theorem claim_C5_witness :
    (handle_packet connsEmpty pktSyn 0 7).conns 0 =
      some ⟨1000, 7, 1001, false⟩ :=
  (claim_C5 connsEmpty pktSyn 0 7 (by decide) (by decide) (by decide)).1

theorem handle_mono (conns : Nat → Option ConnState) (pkt : Packet)
    (peer rand : Nat) (st : ConnState)
    (hc : conns peer = some st) (hest : st.established = true)
    (hsyn : pkt.flags &&& FLAG_SYN = 0) :
    ∀ st', (handle_packet conns pkt peer rand).conns peer = some st' →
      st.expected_seq ≤ st'.expected_seq := by
  intro st' h
  unfold handle_packet at h
  rw [if_neg (not_ne_iff.mpr hsyn)] at h
  simp only [hc] at h
  rw [if_neg (by simp [hest])] at h
  rw [if_pos hest] at h
  by_cases hd : pkt.flags &&& FLAG_PSH ≠ 0 ∨ pkt.payload.length > 0
  · rw [if_pos hd] at h
    by_cases hs : pkt.seq = st.expected_seq
    · rw [if_pos hs] at h
      cases hpk : pack_packet st.server_seq
          (st.expected_seq + pkt.payload.length) FLAG_ACK 1 [] with
      | none =>
        simp only [hpk] at h
        simp at h
        rw [← h]
        simp
      | some b =>
        simp only [hpk] at h
        simp at h
        rw [← h]
        simp
    · rw [if_neg hs] at h
      cases hpk : pack_packet st.server_seq st.expected_seq FLAG_ACK 1 []
        with
      | none =>
        simp only [hpk] at h
        rw [hc] at h
        injection h with h2
        rw [← h2]
      | some b =>
        simp only [hpk] at h
        rw [hc] at h
        injection h with h2
        rw [← h2]
  · rw [if_neg hd] at h
    by_cases hf : pkt.flags &&& FLAG_FIN ≠ 0
    · rw [if_pos hf] at h
      cases hpk1 : pack_packet st.server_seq (st.expected_seq + 1)
          FLAG_ACK 1 [] with
      | none =>
        simp only [hpk1] at h
        simp at h
        rw [← h]
        simp
      | some ba =>
        simp only [hpk1] at h
        cases hpk2 : pack_packet st.server_seq (st.expected_seq + 1)
            FLAG_FIN 1 [] with
        | none =>
          simp only [hpk2] at h
          simp at h
          rw [← h]
          simp
        | some bf =>
          simp only [hpk2] at h
          simp at h
    · rw [if_neg hf] at h
      dsimp only at h
      rw [hc] at h
      injection h with h2
      rw [← h2]

theorem handle_data_in (conns : Nat → Option ConnState) (pkt : Packet)
    (peer rand : Nat) (st : ConnState)
    (hc : conns peer = some st) (hest : st.established = true)
    (hsyn : pkt.flags &&& FLAG_SYN = 0)
    (hdata : pkt.flags &&& FLAG_PSH ≠ 0 ∨ pkt.payload.length > 0)
    (hseq : pkt.seq = st.expected_seq)
    (hsrv : st.server_seq ≤ 0xffffffff)
    (hbound : st.expected_seq + pkt.payload.length ≤ 0xffffffff) :
    (handle_packet conns pkt peer rand).conns peer =
      some { st with expected_seq := st.expected_seq + pkt.payload.length } ∧
    (∀ q, q ≠ peer →
      (handle_packet conns pkt peer rand).conns q = conns q) ∧
    (handle_packet conns pkt peer rand).crashed = false ∧
    ∃ b, (handle_packet conns pkt peer rand).sent = [b] ∧
      unpack_packet b = .ok ⟨st.server_seq,
        st.expected_seq + pkt.payload.length, FLAG_ACK, 1, []⟩ := by
  obtain ⟨b, hpack, hunp⟩ := pack_unpack st.server_seq
    (st.expected_seq + pkt.payload.length) FLAG_ACK 1 [] hsrv hbound
    (by decide) (by decide) (by decide)
  unfold handle_packet
  rw [if_neg (not_ne_iff.mpr hsyn)]
  simp only [hc]
  rw [if_neg (by simp [hest]), if_pos hest, if_pos hdata, if_pos hseq]
  simp only [hpack]
  exact ⟨by simp, fun q hq => by simp [hq], by trivial, b, by trivial, hunp⟩

theorem handle_data_ooo (conns : Nat → Option ConnState) (pkt : Packet)
    (peer rand : Nat) (st : ConnState)
    (hc : conns peer = some st) (hest : st.established = true)
    (hsyn : pkt.flags &&& FLAG_SYN = 0)
    (hdata : pkt.flags &&& FLAG_PSH ≠ 0 ∨ pkt.payload.length > 0)
    (hseq : pkt.seq ≠ st.expected_seq)
    (hsrv : st.server_seq ≤ 0xffffffff)
    (hexp : st.expected_seq ≤ 0xffffffff) :
    (handle_packet conns pkt peer rand).conns = conns ∧
    (handle_packet conns pkt peer rand).crashed = false ∧
    ∃ b, (handle_packet conns pkt peer rand).sent = [b] ∧
      unpack_packet b =
        .ok ⟨st.server_seq, st.expected_seq, FLAG_ACK, 1, []⟩ := by
  obtain ⟨b, hpack, hunp⟩ := pack_unpack st.server_seq st.expected_seq
    FLAG_ACK 1 [] hsrv hexp (by decide) (by decide) (by decide)
  unfold handle_packet
  rw [if_neg (not_ne_iff.mpr hsyn)]
  simp only [hc]
  rw [if_neg (by simp [hest]), if_pos hest, if_pos hdata, if_neg hseq]
  simp only [hpack]
  exact ⟨by trivial, by trivial, b, by trivial, hunp⟩

theorem handle_fin (conns : Nat → Option ConnState) (pkt : Packet)
    (peer rand : Nat) (st : ConnState)
    (hc : conns peer = some st) (hest : st.established = true)
    (hsyn : pkt.flags &&& FLAG_SYN = 0)
    (hpsh : pkt.flags &&& FLAG_PSH = 0) (hpay : pkt.payload = [])
    (hfin : pkt.flags &&& FLAG_FIN ≠ 0)
    (hsrv : st.server_seq ≤ 0xffffffff)
    (hexp : st.expected_seq + 1 ≤ 0xffffffff) :
    (handle_packet conns pkt peer rand).conns peer = none ∧
    (∀ q, q ≠ peer →
      (handle_packet conns pkt peer rand).conns q = conns q) ∧
    (handle_packet conns pkt peer rand).crashed = false ∧
    ∃ ba bf, (handle_packet conns pkt peer rand).sent = [ba, bf] ∧
      unpack_packet ba =
        .ok ⟨st.server_seq, st.expected_seq + 1, FLAG_ACK, 1, []⟩ ∧
      unpack_packet bf =
        .ok ⟨st.server_seq, st.expected_seq + 1, FLAG_FIN, 1, []⟩ := by
  obtain ⟨ba, hpack1, hunp1⟩ := pack_unpack st.server_seq
    (st.expected_seq + 1) FLAG_ACK 1 [] hsrv hexp (by decide) (by decide)
    (by decide)
  obtain ⟨bf, hpack2, hunp2⟩ := pack_unpack st.server_seq
    (st.expected_seq + 1) FLAG_FIN 1 [] hsrv hexp (by decide) (by decide)
    (by decide)
  unfold handle_packet
  rw [if_neg (not_ne_iff.mpr hsyn)]
  simp only [hc]
  rw [if_neg (by simp [hest]), if_pos hest,
    if_neg (by simp [hpsh, hpay]), if_pos hfin]
  simp only [hpack1, hpack2]
  exact ⟨by simp, fun q hq => by simp [hq], by trivial, ba, bf, by trivial,
    hunp1, hunp2⟩

/-- Claim C6 (amended): on an established connection `expected_seq` never
decreases under a non-SYN packet; an in-order data packet (PSH flag or
non-empty payload, `sequence = expected_seq`) advances `expected_seq` by
exactly the payload length and — provided the advanced value still fits a
`u32` field — is answered with one ACK carrying the new `expected_seq`
(at larger values the state still advances but the reply's `struct.pack`
raises and nothing is sent); a data packet with any other sequence leaves
the table unchanged (so repeating it yields the identical handler
output) and is answered with one ACK carrying the current
`expected_seq`. -/
theorem claim_C6 (conns : Nat → Option ConnState) (pkt : Packet)
    (peer rand : Nat) (st : ConnState)
    (hc : conns peer = some st) (hest : st.established = true)
    (hsyn : pkt.flags &&& FLAG_SYN = 0)
    (hsrv : st.server_seq ≤ 0xffffffff) :
    (∀ st', (handle_packet conns pkt peer rand).conns peer = some st' →
      st.expected_seq ≤ st'.expected_seq) ∧
    (pkt.flags &&& FLAG_PSH ≠ 0 ∨ pkt.payload.length > 0 →
      pkt.seq = st.expected_seq →
      st.expected_seq + pkt.payload.length ≤ 0xffffffff →
      (handle_packet conns pkt peer rand).conns peer =
        some { st with
          expected_seq := st.expected_seq + pkt.payload.length } ∧
      ∃ b, (handle_packet conns pkt peer rand).sent = [b] ∧
        unpack_packet b = .ok ⟨st.server_seq,
          st.expected_seq + pkt.payload.length, FLAG_ACK, 1, []⟩) ∧
    (pkt.flags &&& FLAG_PSH ≠ 0 ∨ pkt.payload.length > 0 →
      pkt.seq ≠ st.expected_seq →
      st.expected_seq ≤ 0xffffffff →
      (handle_packet conns pkt peer rand).conns = conns ∧
      handle_packet (handle_packet conns pkt peer rand).conns pkt peer rand
        = handle_packet conns pkt peer rand ∧
      ∃ b, (handle_packet conns pkt peer rand).sent = [b] ∧
        unpack_packet b =
          .ok ⟨st.server_seq, st.expected_seq, FLAG_ACK, 1, []⟩) := by
  refine ⟨handle_mono conns pkt peer rand st hc hest hsyn, ?_, ?_⟩
  · intro hdata hseq hbound
    obtain ⟨h1, _, _, h4⟩ := handle_data_in conns pkt peer rand st hc hest
      hsyn hdata hseq hsrv hbound
    exact ⟨h1, h4⟩
  · intro hdata hseq hexp
    obtain ⟨h1, _, h3⟩ := handle_data_ooo conns pkt peer rand st hc hest
      hsyn hdata hseq hsrv hexp
    exact ⟨h1, by rw [h1], h3⟩

/-- Claim C6 witness: the in-order data packet `pktData` advances the
`conns0` connection's `expected_seq` from 50 to 53. -/
theorem claim_C6_witness :
    (handle_packet conns0 pktData 0 0).conns 0 = some ⟨100, 7, 53, true⟩ :=
  ((claim_C6 conns0 pktData 0 0 ⟨100, 7, 50, true⟩ rfl rfl (by decide)
    (by decide)).2.1 (by decide) rfl (by decide)).1

/-- Claim C8 (amended): a FIN (empty payload, no PSH) on an established
connection whose incremented `expected_seq` still fits a `u32` field
advances `expected_seq` by exactly one, sends an ACK carrying the new
value followed (after the fixed delay) by a FIN carrying the connection's
`server_seq` and the new value, removes the connection from the table,
and afterwards any non-SYN packet from that peer is dropped with no reply
and no state change; when `expected_seq + 1` exceeds the `u32` range the
ACK's `struct.pack` raises, nothing is sent and the connection is not
removed. -/
theorem claim_C8 (conns : Nat → Option ConnState) (pkt : Packet)
    (peer rand : Nat) (st : ConnState)
    (hc : conns peer = some st) (hest : st.established = true)
    (hsyn : pkt.flags &&& FLAG_SYN = 0)
    (hpsh : pkt.flags &&& FLAG_PSH = 0) (hpay : pkt.payload = [])
    (hfin : pkt.flags &&& FLAG_FIN ≠ 0)
    (hsrv : st.server_seq ≤ 0xffffffff)
    (hexp : st.expected_seq + 1 ≤ 0xffffffff) :
    (handle_packet conns pkt peer rand).conns peer = none ∧
    (∀ q, q ≠ peer →
      (handle_packet conns pkt peer rand).conns q = conns q) ∧
    (∃ ba bf, (handle_packet conns pkt peer rand).sent = [ba, bf] ∧
      unpack_packet ba =
        .ok ⟨st.server_seq, st.expected_seq + 1, FLAG_ACK, 1, []⟩ ∧
      unpack_packet bf =
        .ok ⟨st.server_seq, st.expected_seq + 1, FLAG_FIN, 1, []⟩) ∧
    (∀ pkt2 rand2, pkt2.flags &&& FLAG_SYN = 0 →
      handle_packet (handle_packet conns pkt peer rand).conns pkt2 peer
        rand2 = ⟨(handle_packet conns pkt peer rand).conns, [], false⟩) := by
  obtain ⟨h1, h2, _, h4⟩ := handle_fin conns pkt peer rand st hc hest hsyn
    hpsh hpay hfin hsrv hexp
  exact ⟨h1, h2, h4, fun pkt2 rand2 hsyn2 =>
    handle_unknown _ pkt2 peer rand2 h1 hsyn2⟩

/-- Claim C8 witness: a FIN on the `conns0` connection removes peer `0`
from the table. -/
theorem claim_C8_witness :
    (handle_packet conns0 pktFin 0 0).conns 0 = none :=
  (claim_C8 conns0 pktFin 0 0 ⟨100, 7, 50, true⟩ rfl rfl (by decide)
    (by decide) rfl (by decide) (by decide) (by decide)).1

/-- Claim C9 (amended): the FIN teardown does not inspect the incoming
sequence number — for a FIN (empty payload, no PSH) whose sequence
differs from `expected_seq`, the full teardown (advance by one, ACK, FIN,
removal) still happens, provided the incremented `expected_seq` fits a
`u32` field (otherwise the handler raises before sending or removing
anything, equally without inspecting the sequence). -/
theorem claim_C9 (conns : Nat → Option ConnState) (pkt : Packet)
    (peer rand : Nat) (st : ConnState)
    (hc : conns peer = some st) (hest : st.established = true)
    (hsyn : pkt.flags &&& FLAG_SYN = 0)
    (hpsh : pkt.flags &&& FLAG_PSH = 0) (hpay : pkt.payload = [])
    (hfin : pkt.flags &&& FLAG_FIN ≠ 0)
    (hseq : pkt.seq ≠ st.expected_seq)
    (hsrv : st.server_seq ≤ 0xffffffff)
    (hexp : st.expected_seq + 1 ≤ 0xffffffff) :
    (handle_packet conns pkt peer rand).conns peer = none ∧
    (handle_packet conns pkt peer rand).crashed = false ∧
    ∃ ba bf, (handle_packet conns pkt peer rand).sent = [ba, bf] ∧
      unpack_packet ba =
        .ok ⟨st.server_seq, st.expected_seq + 1, FLAG_ACK, 1, []⟩ ∧
      unpack_packet bf =
        .ok ⟨st.server_seq, st.expected_seq + 1, FLAG_FIN, 1, []⟩ := by
  obtain ⟨h1, _, h3, h4⟩ := handle_fin conns pkt peer rand st hc hest hsyn
    hpsh hpay hfin hsrv hexp
  exact ⟨h1, h3, h4⟩

/-- Claim C9 witness: `pktFin` has sequence 51 while the `conns0`
connection expects 50, and the teardown still completes without
raising. -/
theorem claim_C9_witness :
    (handle_packet conns0 pktFin 0 0).crashed = false :=
  (claim_C9 conns0 pktFin 0 0 ⟨100, 7, 50, true⟩ rfl rfl (by decide)
    (by decide) rfl (by decide) (by decide) (by decide) (by decide)).2.1

/-- Claim C6 counterexample: on the established connection whose
`expected_seq` is `2^32 - 1`, the in-order one-byte data packet advances
the state to `2^32` but no ACK carrying the new `expected_seq` is sent —
the reply's `struct.pack` raises instead. -/
theorem claim_C6_counterexample :
    (handle_packet connsMax pktDataMax 0 0).conns 0 =
      some ⟨100, 7, 4294967296, true⟩ ∧
    (handle_packet connsMax pktDataMax 0 0).sent = [] ∧
    (handle_packet connsMax pktDataMax 0 0).crashed = true := by decide

/-- Claim C8 counterexample: a FIN on the established connection whose
`expected_seq` is `2^32 - 1` mutates `expected_seq` to `2^32` but sends
nothing and does not remove the connection — the ACK's `struct.pack`
raises first. -/
theorem claim_C8_counterexample :
    (handle_packet connsMax pktFinMax 0 0).conns 0 =
      some ⟨100, 7, 4294967296, true⟩ ∧
    (handle_packet connsMax pktFinMax 0 0).sent = [] ∧
    (handle_packet connsMax pktFinMax 0 0).crashed = true := by decide

/-- Claim C9 counterexample: a FIN whose sequence (7) differs from the
`connsMax` connection's `expected_seq` (`2^32 - 1`) does not complete the
teardown — the connection stays in the table and nothing is sent, because
the ACK's `struct.pack` raises. -/
theorem claim_C9_counterexample :
    pktFinMaxOoo.seq ≠ 4294967295 ∧
    (handle_packet connsMax pktFinMaxOoo 0 0).conns 0 ≠ none ∧
    (handle_packet connsMax pktFinMaxOoo 0 0).sent = [] := by decide

end UdpTcpLite
